import Mathlib

/-!
Shallow embedding of the round/session state machine of the TamilTeacher
repository (src/types.ts, src/App.tsx, src/services/geminiService.ts).

The external Segmenter (Intl.Segmenter) is modelled as an explicit function
parameter `sg : String → List String`; the Content Provider's fetch results
are modelled as explicit `Except`/`Option` parameters, matching the
resolve/reject behaviour of the corresponding promises.
-/

namespace TamilTeacher

/-- Embeds `enum GameStatus` from src/types.ts. -/
inductive GameStatus
  | IDLE
  | DIFFICULTY_SELECT
  | LOADING
  | PLAYING
  | WON
  | LOST
  | ERROR
  | SERIES_OVER
deriving DecidableEq, Repr

/-- Embeds `enum Difficulty` from src/types.ts. -/
inductive Difficulty
  | EASY
  | MEDIUM
  | HARD
deriving DecidableEq, Repr

/-- Embeds `GUESS_LIMITS` from src/types.ts: Easy 8, Medium 6, Hard 4. -/
def GUESS_LIMITS : Difficulty → Nat
  | .EASY => 8
  | .MEDIUM => 6
  | .HARD => 4

/-- Embeds `const TOTAL_ROUNDS = 6` from src/App.tsx. -/
def TOTAL_ROUNDS : Nat := 6

/-- The two teams of the tournament variant ('A' | 'B' in src/App.tsx). -/
inductive Team
  | A
  | B
deriving DecidableEq, Repr

/-- Embeds the turn switch `prev === 'A' ? 'B' : 'A'` from src/App.tsx. -/
def Team.flip : Team → Team
  | .A => .B
  | .B => .A

/-- Embeds the `scores` state `{ A: number; B: number }` from src/App.tsx. -/
structure Scores where
  A : Nat
  B : Nat
deriving DecidableEq, Repr

/-- Score lookup `scores[team]`. -/
def Scores.get (sc : Scores) : Team → Nat
  | .A => sc.A
  | .B => sc.B

/-- Embeds `setScores(prev => ({ ...prev, [currentTeam]: prev[currentTeam] + 1 }))`. -/
def Scores.addPoint (sc : Scores) : Team → Scores
  | .A => { sc with A := sc.A + 1 }
  | .B => { sc with B := sc.B + 1 }

/-- Embeds `interface GameWordData` from src/types.ts. -/
structure GameWordData where
  word : String
  english : String
  transliteration : String
  distractors : List String
  distractorLetters : List String
deriving DecidableEq, Repr

/-- Embeds `interface GameImage` from src/types.ts. -/
structure GameImage where
  label : String
  src : String
  isTarget : Bool
deriving DecidableEq, Repr

/-- The React state of the `App` component in src/App.tsx (tournament variant). -/
structure GameState where
  status : GameStatus
  difficulty : Difficulty
  wordData : Option GameWordData
  images : List GameImage
  audioData : Option String
  guessedLetters : Finset String
  wrongGuesses : Nat
  errorMsg : Option String
  usedWords : List String
  scores : Scores
  currentTeam : Team
  roundStarter : Team
  roundNumber : Nat

/-- Embeds the derived state `wordSegments = wordData ? segmentText(wordData.word) : []`
from src/App.tsx, with the external Segmenter passed in as `sg`. -/
def wordSegmentsOf (sg : String → List String) (s : GameState) : List String :=
  match s.wordData with
  | none => []
  | some d => sg d.word

/-- JavaScript `Set` built from a list: first-occurrence insertion order, as
produced by `new Set(list)` followed by `Array.from`. -/
def jsSetList (l : List String) : List String :=
  l.foldl (fun acc x => if x ∈ acc then acc else acc ++ [x]) []

/-- Embeds the derived state `keyboardLetters` from src/App.tsx (lines 43-51):
target letter set (via the Segmenter) plus the distractor letters that do not
collide with it, concatenated before the random shuffle. -/
def keyboardLetters (sg : String → List String) (wd : GameWordData) : List String :=
  let targetSet := jsSetList (sg wd.word)
  let validDistractors := wd.distractorLetters.filter (fun l => l ∉ targetSet)
  targetSet ++ validDistractors

/-- Embeds `handleGuess` from src/App.tsx (lines 146-181). -/
def handleGuess (sg : String → List String) (letter : String) (s : GameState) : GameState :=
  if s.status ≠ GameStatus.PLAYING then s
  else
    let newGuessed := insert letter s.guessedLetters
    let wordSegments := wordSegmentsOf sg s
    let maxGuesses := GUESS_LIMITS s.difficulty
    if letter ∉ wordSegments then
      let newWrong := s.wrongGuesses + 1
      if newWrong ≥ maxGuesses then
        { s with guessedLetters := newGuessed, wrongGuesses := newWrong,
                 status := GameStatus.LOST }
      else
        { s with guessedLetters := newGuessed, wrongGuesses := newWrong,
                 currentTeam := s.currentTeam.flip }
    else
      if ∀ seg ∈ wordSegments, seg ∈ newGuessed then
        { s with guessedLetters := newGuessed, status := GameStatus.WON,
                 scores := s.scores.addPoint s.currentTeam }
      else
        { s with guessedLetters := newGuessed }

/-- The user-facing retry message set by `loadPuzzle`'s catch block. -/
def loadErrorMessage : String := "Oops! Something went wrong loading the game. Please try again."

/-- The synchronous prefix of `loadPuzzle` (src/App.tsx lines 56-61): enter
LOADING and clear the per-round state. -/
def loadPuzzleStart (s : GameState) : GameState :=
  { s with status := GameStatus.LOADING, errorMsg := none,
           guessedLetters := ∅, wrongGuesses := 0, images := [], audioData := none }

/-- Embeds `generateAudioForWord` from src/services/geminiService.ts (lines
96-118): the upstream call either fails, or returns a response whose inline
data may be absent; both the catch branch and absent data yield `""`. -/
def generateAudioForWord (upstream : Except String (Option String)) : String :=
  match upstream with
  | .error _ => ""
  | .ok none => ""
  | .ok (some d) => d

/-- The image batch of `loadPuzzle` (src/App.tsx lines 71-88): one image per
target gloss and the two distractor labels, exactly one tagged as target;
`Promise.all` fails if any single fetch fails. -/
def loadImages (imageFetch : String → Except String String) (data : GameWordData) :
    Except String (List GameImage) :=
  match imageFetch data.english,
        imageFetch (data.distractors.getD 0 ""),
        imageFetch (data.distractors.getD 1 "") with
  | .ok src1, .ok src2, .ok src3 =>
      .ok [⟨data.english, src1, true⟩,
           ⟨data.distractors.getD 0 "", src2, false⟩,
           ⟨data.distractors.getD 1 "", src3, false⟩]
  | .error e, _, _ => .error e
  | .ok _, .error e, _ => .error e
  | .ok _, .ok _, .error e => .error e

/-- Embeds `loadPuzzle` from src/App.tsx (lines 54-99), with the Content
Provider's outcomes passed explicitly: the word fetch result, the per-label
image fetch, and the audio upstream (which `generateAudioForWord` turns into
a plain string, never a failure). A word-fetch failure or any image-fetch
failure lands in the catch block (ERROR); otherwise the round reaches
PLAYING with all assets stored. -/
def loadPuzzle (wordRes : Except String GameWordData)
    (imageFetch : String → Except String String)
    (audioUpstream : Except String (Option String)) (s : GameState) : GameState :=
  let s0 := loadPuzzleStart s
  match wordRes with
  | .error _ => { s0 with status := GameStatus.ERROR, errorMsg := some loadErrorMessage }
  | .ok data =>
    let s1 := { s0 with wordData := some data, usedWords := s0.usedWords ++ [data.word] }
    match loadImages imageFetch data with
    | .error _ => { s1 with status := GameStatus.ERROR, errorMsg := some loadErrorMessage }
    | .ok loadedImages =>
      { s1 with images := loadedImages,
                audioData := some (generateAudioForWord audioUpstream),
                status := GameStatus.PLAYING }

/-- Embeds `startNewSeries` from src/App.tsx (lines 105-113). -/
def startNewSeries (d : Difficulty) (wordRes : Except String GameWordData)
    (imageFetch : String → Except String String)
    (audioUpstream : Except String (Option String)) (s : GameState) : GameState :=
  loadPuzzle wordRes imageFetch audioUpstream
    { s with difficulty := d, scores := ⟨0, 0⟩, roundNumber := 1,
             roundStarter := Team.A, currentTeam := Team.A, usedWords := [] }

/-- Embeds `handleNextRound` from src/App.tsx (lines 115-129). -/
def handleNextRound (wordRes : Except String GameWordData)
    (imageFetch : String → Except String String)
    (audioUpstream : Except String (Option String)) (s : GameState) : GameState :=
  if s.roundNumber ≥ TOTAL_ROUNDS then
    { s with status := GameStatus.SERIES_OVER }
  else
    let nextStarter := s.roundStarter.flip
    loadPuzzle wordRes imageFetch audioUpstream
      { s with roundNumber := s.roundNumber + 1, roundStarter := nextStarter,
               currentTeam := nextStarter }

/-- Outcome of the series, from the winner expression in src/App.tsx line 243. -/
inductive SeriesOutcome
  | teamA
  | teamB
  | tie
deriving DecidableEq, Repr

/-- Embeds `scores.A > scores.B ? 'Team A' : scores.B > scores.A ? 'Team B' : 'Tie'`
from src/App.tsx (line 243). -/
def seriesWinner (sc : Scores) : SeriesOutcome :=
  if sc.A > sc.B then SeriesOutcome.teamA
  else if sc.B > sc.A then SeriesOutcome.teamB
  else SeriesOutcome.tie

/-- Per-character segmentation, a concrete instance of the Segmenter collaborator
used for witnesses. -/
def charSeg (w : String) : List String := w.toList.map Char.toString

/-- A concrete mid-round playing state used by witnesses. -/
def sampleWord : GameWordData :=
  ⟨"kan", "eye", "kan", ["dog", "cat"], ["z", "q"]⟩

/-- A concrete PLAYING state at the start of round 1 of a HARD series. -/
def samplePlaying : GameState :=
  { status := GameStatus.PLAYING, difficulty := Difficulty.HARD,
    wordData := some sampleWord, images := [], audioData := none,
    guessedLetters := ∅, wrongGuesses := 0, errorMsg := none, usedWords := ["kan"],
    scores := ⟨0, 0⟩, currentTeam := Team.A, roundStarter := Team.A, roundNumber := 1 }

/-- A PLAYING state one correct letter away from completion. -/
def sampleAlmostWon : GameState :=
  { samplePlaying with guessedLetters := {"k", "a"} }

/-- A resolved round-6 state of the same series. -/
def sampleRoundSix : GameState :=
  { samplePlaying with status := GameStatus.WON, roundNumber := 6 }

theorem handleGuess_not_playing (sg : String → List String) (letter : String) (s : GameState)
    (h : s.status ≠ GameStatus.PLAYING) : handleGuess sg letter s = s := by
  unfold handleGuess
  rw [if_pos h]

theorem handleGuess_wrong_lost (sg : String → List String) (letter : String) (s : GameState)
    (hp : s.status = GameStatus.PLAYING) (hm : letter ∉ wordSegmentsOf sg s)
    (hb : GUESS_LIMITS s.difficulty ≤ s.wrongGuesses + 1) :
    handleGuess sg letter s
      = { s with guessedLetters := insert letter s.guessedLetters,
                 wrongGuesses := s.wrongGuesses + 1, status := GameStatus.LOST } := by
  unfold handleGuess
  rw [if_neg (by simp [hp]), if_pos hm, if_pos hb]

theorem handleGuess_wrong_flip (sg : String → List String) (letter : String) (s : GameState)
    (hp : s.status = GameStatus.PLAYING) (hm : letter ∉ wordSegmentsOf sg s)
    (hb : s.wrongGuesses + 1 < GUESS_LIMITS s.difficulty) :
    handleGuess sg letter s
      = { s with guessedLetters := insert letter s.guessedLetters,
                 wrongGuesses := s.wrongGuesses + 1,
                 currentTeam := s.currentTeam.flip } := by
  unfold handleGuess
  rw [if_neg (by simp [hp]), if_pos hm, if_neg (by omega)]

theorem handleGuess_correct_won (sg : String → List String) (letter : String) (s : GameState)
    (hp : s.status = GameStatus.PLAYING) (hm : letter ∈ wordSegmentsOf sg s)
    (hall : ∀ seg ∈ wordSegmentsOf sg s, seg ∈ insert letter s.guessedLetters) :
    handleGuess sg letter s
      = { s with guessedLetters := insert letter s.guessedLetters,
                 status := GameStatus.WON,
                 scores := s.scores.addPoint s.currentTeam } := by
  unfold handleGuess
  rw [if_neg (by simp [hp]), if_neg (by simp [hm]), if_pos hall]

theorem handleGuess_correct_continue (sg : String → List String) (letter : String) (s : GameState)
    (hp : s.status = GameStatus.PLAYING) (hm : letter ∈ wordSegmentsOf sg s)
    (hnall : ¬ ∀ seg ∈ wordSegmentsOf sg s, seg ∈ insert letter s.guessedLetters) :
    handleGuess sg letter s
      = { s with guessedLetters := insert letter s.guessedLetters } := by
  unfold handleGuess
  rw [if_neg (by simp [hp]), if_neg (by simp [hm]), if_neg hnall]

theorem handleGuess_wrongGuesses_eq (sg : String → List String) (letter : String)
    (s : GameState) (hp : s.status = GameStatus.PLAYING) :
    (handleGuess sg letter s).wrongGuesses
      = if letter ∈ wordSegmentsOf sg s then s.wrongGuesses else s.wrongGuesses + 1 := by
  by_cases hm : letter ∈ wordSegmentsOf sg s
  · rw [if_pos hm]
    by_cases hall : ∀ seg ∈ wordSegmentsOf sg s, seg ∈ insert letter s.guessedLetters
    · rw [handleGuess_correct_won sg letter s hp hm hall]
    · rw [handleGuess_correct_continue sg letter s hp hm hall]
  · rw [if_neg hm]
    by_cases hb : GUESS_LIMITS s.difficulty ≤ s.wrongGuesses + 1
    · rw [handleGuess_wrong_lost sg letter s hp hm hb]
    · rw [handleGuess_wrong_flip sg letter s hp hm (by omega)]

theorem handleGuess_lost_iff (sg : String → List String) (letter : String)
    (s : GameState) (hp : s.status = GameStatus.PLAYING) :
    (handleGuess sg letter s).status = GameStatus.LOST
      ↔ letter ∉ wordSegmentsOf sg s ∧ GUESS_LIMITS s.difficulty ≤ s.wrongGuesses + 1 := by
  by_cases hm : letter ∈ wordSegmentsOf sg s
  · by_cases hall : ∀ seg ∈ wordSegmentsOf sg s, seg ∈ insert letter s.guessedLetters
    · rw [handleGuess_correct_won sg letter s hp hm hall]
      show GameStatus.WON = GameStatus.LOST ↔ _
      simp [hm]
    · rw [handleGuess_correct_continue sg letter s hp hm hall]
      show s.status = GameStatus.LOST ↔ _
      rw [hp]
      simp [hm]
  · by_cases hb : GUESS_LIMITS s.difficulty ≤ s.wrongGuesses + 1
    · rw [handleGuess_wrong_lost sg letter s hp hm hb]
      show GameStatus.LOST = GameStatus.LOST ↔ _
      simp [hm, hb]
    · rw [handleGuess_wrong_flip sg letter s hp hm (by omega)]
      show s.status = GameStatus.LOST ↔ _
      rw [hp]
      simp only [hm, not_false_iff, true_and]
      constructor
      · intro h
        exact absurd h (by simp)
      · intro h
        omega

/-- C1: while the status is Playing, a guess bumps the wrong-guess counter by
exactly one iff the letter is outside the target letter set (correct guesses
leave it unchanged, so the counter never decreases); the status becomes Lost
exactly when that bump makes the counter reach the active difficulty's budget
(never while the counter is still short of the budget), and once a state has
Lost status no further guess changes it. -/
theorem claim1_wrong_counter_and_lost (sg : String → List String) (letter : String)
    (s : GameState) (hp : s.status = GameStatus.PLAYING) :
    ((handleGuess sg letter s).wrongGuesses
        = if letter ∈ wordSegmentsOf sg s then s.wrongGuesses else s.wrongGuesses + 1) ∧
    ((handleGuess sg letter s).status = GameStatus.LOST
        ↔ letter ∉ wordSegmentsOf sg s ∧ GUESS_LIMITS s.difficulty ≤ s.wrongGuesses + 1) ∧
    (s.wrongGuesses < GUESS_LIMITS s.difficulty →
      ((handleGuess sg letter s).status = GameStatus.LOST
        ↔ letter ∉ wordSegmentsOf sg s ∧
          (handleGuess sg letter s).wrongGuesses = GUESS_LIMITS s.difficulty)) ∧
    (∀ t : GameState, t.status = GameStatus.LOST →
      ∀ l : String, handleGuess sg l t = t) := by
  have hlost : ∀ t : GameState, t.status = GameStatus.LOST →
      ∀ l : String, handleGuess sg l t = t := by
    intro t ht l
    refine handleGuess_not_playing sg l t ?_
    rw [ht]
    simp
  refine ⟨handleGuess_wrongGuesses_eq sg letter s hp,
          handleGuess_lost_iff sg letter s hp, ?_, hlost⟩
  intro hlt
  rw [handleGuess_lost_iff sg letter s hp, handleGuess_wrongGuesses_eq sg letter s hp]
  by_cases hm : letter ∈ wordSegmentsOf sg s
  · simp [hm]
  · simp only [hm, if_neg, not_false_iff, true_and, if_false]
    omega

/-- Witness for C1 at a concrete PLAYING state and a wrong letter. -/
theorem claim1_witness :
    samplePlaying.status = GameStatus.PLAYING ∧
    (((handleGuess charSeg "z" samplePlaying).wrongGuesses
        = if "z" ∈ wordSegmentsOf charSeg samplePlaying
          then samplePlaying.wrongGuesses else samplePlaying.wrongGuesses + 1) ∧
    ((handleGuess charSeg "z" samplePlaying).status = GameStatus.LOST
        ↔ "z" ∉ wordSegmentsOf charSeg samplePlaying ∧
          GUESS_LIMITS samplePlaying.difficulty ≤ samplePlaying.wrongGuesses + 1) ∧
    (samplePlaying.wrongGuesses < GUESS_LIMITS samplePlaying.difficulty →
      ((handleGuess charSeg "z" samplePlaying).status = GameStatus.LOST
        ↔ "z" ∉ wordSegmentsOf charSeg samplePlaying ∧
          (handleGuess charSeg "z" samplePlaying).wrongGuesses
            = GUESS_LIMITS samplePlaying.difficulty)) ∧
    (∀ t : GameState, t.status = GameStatus.LOST →
      ∀ l : String, handleGuess charSeg l t = t)) :=
  ⟨rfl, claim1_wrong_counter_and_lost charSeg "z" samplePlaying rfl⟩

/-- C2: while Playing with the word not yet complete, a guess transitions the
round to Won exactly when the target letter set is contained in the guessed
set after the current letter is added; the containment condition only depends
on the deduplicated target letter set, so duplicate segments in the target
are satisfied by a single guess of that letter. -/
theorem claim2_won_iff_covered (sg : String → List String) (letter : String)
    (s : GameState) (hp : s.status = GameStatus.PLAYING)
    (hnc : ¬ ∀ x ∈ wordSegmentsOf sg s, x ∈ s.guessedLetters) :
    ((handleGuess sg letter s).status = GameStatus.WON
      ↔ ∀ x ∈ wordSegmentsOf sg s, x ∈ insert letter s.guessedLetters) ∧
    ((∀ x ∈ wordSegmentsOf sg s, x ∈ insert letter s.guessedLetters)
      ↔ ∀ x ∈ (wordSegmentsOf sg s).dedup, x ∈ insert letter s.guessedLetters) := by
  constructor
  · by_cases hm : letter ∈ wordSegmentsOf sg s
    · by_cases hall : ∀ seg ∈ wordSegmentsOf sg s, seg ∈ insert letter s.guessedLetters
      · rw [handleGuess_correct_won sg letter s hp hm hall]
        show GameStatus.WON = GameStatus.WON ↔ _
        exact iff_of_true rfl hall
      · rw [handleGuess_correct_continue sg letter s hp hm hall]
        show s.status = GameStatus.WON ↔ _
        rw [hp]
        exact iff_of_false (by simp) hall
    · have hins : (∀ x ∈ wordSegmentsOf sg s, x ∈ insert letter s.guessedLetters)
          ↔ (∀ x ∈ wordSegmentsOf sg s, x ∈ s.guessedLetters) := by
        constructor
        · intro h x hx
          rcases Finset.mem_insert.mp (h x hx) with heq | hin
          · exact absurd (heq ▸ hx) hm
          · exact hin
        · intro h x hx
          exact Finset.mem_insert_of_mem (h x hx)
      by_cases hb : GUESS_LIMITS s.difficulty ≤ s.wrongGuesses + 1
      · rw [handleGuess_wrong_lost sg letter s hp hm hb]
        show GameStatus.LOST = GameStatus.WON ↔ _
        rw [hins]
        simp [hnc]
      · rw [handleGuess_wrong_flip sg letter s hp hm (by omega)]
        show s.status = GameStatus.WON ↔ _
        rw [hp, hins]
        simp [hnc]
  · constructor
    · intro h x hx
      exact h x (List.mem_dedup.mp hx)
    · intro h x hx
      exact h x (List.mem_dedup.mpr hx)

/-- Witness for C2 at a concrete fresh PLAYING state and a correct letter. -/
theorem claim2_witness :
    samplePlaying.status = GameStatus.PLAYING ∧
    (¬ ∀ x ∈ wordSegmentsOf charSeg samplePlaying, x ∈ samplePlaying.guessedLetters) ∧
    (((handleGuess charSeg "k" samplePlaying).status = GameStatus.WON
      ↔ ∀ x ∈ wordSegmentsOf charSeg samplePlaying,
          x ∈ insert "k" samplePlaying.guessedLetters) ∧
    ((∀ x ∈ wordSegmentsOf charSeg samplePlaying,
          x ∈ insert "k" samplePlaying.guessedLetters)
      ↔ ∀ x ∈ (wordSegmentsOf charSeg samplePlaying).dedup,
          x ∈ insert "k" samplePlaying.guessedLetters)) :=
  ⟨rfl, by decide, claim2_won_iff_covered charSeg "k" samplePlaying rfl (by decide)⟩

/-- A reachable PLAYING state in which the wrong letter "z" has already been
guessed once (and was counted once). -/
def sampleReguess : GameState :=
  { samplePlaying with guessedLetters := {"z"}, wrongGuesses := 1 }

/-- Counterexample to C3: re-submitting the already-guessed wrong letter "z"
changes the wrong-guess counter (1 becomes 2), so an already-guessed letter is
not idempotent for wrong letters. -/
theorem claim3_counterexample :
    sampleReguess.status = GameStatus.PLAYING ∧
    "z" ∈ sampleReguess.guessedLetters ∧
    (handleGuess charSeg "z" sampleReguess).wrongGuesses ≠ sampleReguess.wrongGuesses := by
  refine ⟨rfl, by decide, by decide⟩

/-- C3 amended: a guess submitted while the status is not Playing is rejected
with no state change, and re-submitting an already-guessed letter that is in
the target letter set (while the word is not yet complete) leaves the whole
state unchanged; but re-submitting an already-guessed letter that is outside
the target letter set increments the wrong-guess counter again (the keyboard
prevents this path by disabling previously guessed keys). -/
theorem claim3_invalid_guess (sg : String → List String) (letter : String) (s : GameState) :
    (s.status ≠ GameStatus.PLAYING → handleGuess sg letter s = s) ∧
    (s.status = GameStatus.PLAYING → letter ∈ s.guessedLetters →
      letter ∈ wordSegmentsOf sg s →
      (¬ ∀ x ∈ wordSegmentsOf sg s, x ∈ s.guessedLetters) →
      handleGuess sg letter s = s) ∧
    (s.status = GameStatus.PLAYING → letter ∈ s.guessedLetters →
      letter ∉ wordSegmentsOf sg s →
      (handleGuess sg letter s).wrongGuesses = s.wrongGuesses + 1) := by
  refine ⟨handleGuess_not_playing sg letter s, ?_, ?_⟩
  · intro hp hg hm hnc
    have hins : insert letter s.guessedLetters = s.guessedLetters :=
      Finset.insert_eq_self.mpr hg
    have hnall : ¬ ∀ x ∈ wordSegmentsOf sg s, x ∈ insert letter s.guessedLetters := by
      rw [hins]
      exact hnc
    rw [handleGuess_correct_continue sg letter s hp hm hnall, hins]
  · intro hp hg hm
    rw [handleGuess_wrongGuesses_eq sg letter s hp, if_neg hm]

/-- Witness for C3's amended statement: the non-Playing rejection and the
double-counting branch, both at concrete states. -/
theorem claim3_witness :
    sampleReguess.status = GameStatus.PLAYING ∧
    "z" ∈ sampleReguess.guessedLetters ∧
    "z" ∉ wordSegmentsOf charSeg sampleReguess ∧
    (handleGuess charSeg "z" sampleReguess).wrongGuesses = sampleReguess.wrongGuesses + 1 :=
  ⟨rfl, by decide, by decide,
    (claim3_invalid_guess charSeg "z" sampleReguess).2.2 rfl (by decide) (by decide)⟩

theorem loadPuzzle_tournament_fields (w : Except String GameWordData)
    (i : String → Except String String) (a : Except String (Option String))
    (s : GameState) :
    (loadPuzzle w i a s).roundStarter = s.roundStarter ∧
    (loadPuzzle w i a s).currentTeam = s.currentTeam ∧
    (loadPuzzle w i a s).roundNumber = s.roundNumber ∧
    (loadPuzzle w i a s).scores = s.scores ∧
    (loadPuzzle w i a s).difficulty = s.difficulty := by
  unfold loadPuzzle
  cases w with
  | error e => exact ⟨rfl, rfl, rfl, rfl, rfl⟩
  | ok data =>
    dsimp only
    cases h : loadImages i data with
    | error e => exact ⟨rfl, rfl, rfl, rfl, rfl⟩
    | ok imgs => exact ⟨rfl, rfl, rfl, rfl, rfl⟩

theorem loadPuzzle_status_cases (w : Except String GameWordData)
    (i : String → Except String String) (a : Except String (Option String))
    (s : GameState) :
    (loadPuzzle w i a s).status = GameStatus.ERROR ∨
    (loadPuzzle w i a s).status = GameStatus.PLAYING := by
  unfold loadPuzzle
  cases w with
  | error e => exact Or.inl rfl
  | ok data =>
    dsimp only
    cases h : loadImages i data with
    | error e => exact Or.inl rfl
    | ok imgs => exact Or.inr rfl

/-- C4: a new series starts at round 1 with starter A holding the turn; while
the round counter is below the total, advancing alternates the starter,
increments the counter and hands the new starter the turn, so the starter is
A exactly on odd round numbers (A,B,A,B,A,B across rounds 1..6); within a
round the turn flips on an incorrect guess that stays below the budget and is
retained on every correct guess. -/
theorem claim4_turn_rotation (sg : String → List String)
    (w : Except String GameWordData) (i : String → Except String String)
    (a : Except String (Option String)) (d : Difficulty) (letter : String)
    (s : GameState) :
    ((startNewSeries d w i a s).roundStarter = Team.A ∧
     (startNewSeries d w i a s).roundNumber = 1 ∧
     (startNewSeries d w i a s).currentTeam = (startNewSeries d w i a s).roundStarter) ∧
    (s.roundNumber < TOTAL_ROUNDS →
      ((handleNextRound w i a s).roundStarter = s.roundStarter.flip ∧
       (handleNextRound w i a s).roundNumber = s.roundNumber + 1 ∧
       (handleNextRound w i a s).currentTeam = (handleNextRound w i a s).roundStarter)) ∧
    ((s.roundStarter = Team.A ↔ s.roundNumber % 2 = 1) → s.roundNumber < TOTAL_ROUNDS →
      ((handleNextRound w i a s).roundStarter = Team.A
        ↔ (handleNextRound w i a s).roundNumber % 2 = 1)) ∧
    (s.status = GameStatus.PLAYING → letter ∉ wordSegmentsOf sg s →
      s.wrongGuesses + 1 < GUESS_LIMITS s.difficulty →
      (handleGuess sg letter s).currentTeam = s.currentTeam.flip) ∧
    (s.status = GameStatus.PLAYING → letter ∈ wordSegmentsOf sg s →
      (handleGuess sg letter s).currentTeam = s.currentTeam) := by
  have hnext : s.roundNumber < TOTAL_ROUNDS →
      ((handleNextRound w i a s).roundStarter = s.roundStarter.flip ∧
       (handleNextRound w i a s).roundNumber = s.roundNumber + 1 ∧
       (handleNextRound w i a s).currentTeam = (handleNextRound w i a s).roundStarter) := by
    intro hlt
    unfold handleNextRound
    rw [if_neg (by omega)]
    obtain ⟨h1, h2, h3, -, -⟩ := loadPuzzle_tournament_fields w i a
      { s with roundNumber := s.roundNumber + 1, roundStarter := s.roundStarter.flip,
               currentTeam := s.roundStarter.flip }
    exact ⟨h1, h3, by rw [h1, h2]⟩
  refine ⟨?_, hnext, ?_, ?_, ?_⟩
  · unfold startNewSeries
    obtain ⟨h1, h2, h3, -, -⟩ := loadPuzzle_tournament_fields w i a
      { s with difficulty := d, scores := ⟨0, 0⟩, roundNumber := 1,
               roundStarter := Team.A, currentTeam := Team.A, usedWords := [] }
    refine ⟨?_, ?_, ?_⟩
    · rw [h1]
    · rw [h3]
    · rw [h2, h1]
  · intro hinv hlt
    obtain ⟨h1, h2, -⟩ := hnext hlt
    rw [h1, h2]
    cases hs : s.roundStarter with
    | A =>
      rw [hs] at hinv
      have : s.roundNumber % 2 = 1 := hinv.mp rfl
      simp only [Team.flip]
      constructor
      · intro h
        cases h
      · intro h
        omega
    | B =>
      rw [hs] at hinv
      have : ¬ s.roundNumber % 2 = 1 := fun h => by cases hinv.mpr h
      simp only [Team.flip]
      constructor
      · intro _
        omega
      · intro _
        trivial
  · intro hp hm hb
    rw [handleGuess_wrong_flip sg letter s hp hm hb]
  · intro hp hm
    by_cases hall : ∀ seg ∈ wordSegmentsOf sg s, seg ∈ insert letter s.guessedLetters
    · rw [handleGuess_correct_won sg letter s hp hm hall]
    · rw [handleGuess_correct_continue sg letter s hp hm hall]

/-- Witness for C4 at round 1 of a concrete series: advancing gives starter B
for round 2, and an incorrect below-budget guess flips the turn. -/
theorem claim4_witness :
    samplePlaying.roundNumber < TOTAL_ROUNDS ∧
    ((handleNextRound (Except.error "e") (fun _ => Except.error "e") (Except.error "e")
        samplePlaying).roundStarter = samplePlaying.roundStarter.flip ∧
     (handleNextRound (Except.error "e") (fun _ => Except.error "e") (Except.error "e")
        samplePlaying).roundNumber = samplePlaying.roundNumber + 1 ∧
     (handleNextRound (Except.error "e") (fun _ => Except.error "e") (Except.error "e")
        samplePlaying).currentTeam
       = (handleNextRound (Except.error "e") (fun _ => Except.error "e") (Except.error "e")
            samplePlaying).roundStarter) ∧
    samplePlaying.status = GameStatus.PLAYING ∧
    "z" ∉ wordSegmentsOf charSeg samplePlaying ∧
    samplePlaying.wrongGuesses + 1 < GUESS_LIMITS samplePlaying.difficulty ∧
    (handleGuess charSeg "z" samplePlaying).currentTeam = samplePlaying.currentTeam.flip :=
  ⟨by decide,
   (claim4_turn_rotation charSeg (Except.error "e") (fun _ => Except.error "e")
      (Except.error "e") Difficulty.HARD "z" samplePlaying).2.1 (by decide),
   rfl, by decide, by decide,
   (claim4_turn_rotation charSeg (Except.error "e") (fun _ => Except.error "e")
      (Except.error "e") Difficulty.HARD "z" samplePlaying).2.2.2.1 rfl (by decide) (by decide)⟩

/-- C5: while Playing, a transition to Won leaves the turn with the guessing
team and adds exactly one point to that team's score, leaving the other
team's score unchanged; a transition to Lost changes neither score. -/
theorem claim5_scoring (sg : String → List String) (letter : String) (s : GameState)
    (hp : s.status = GameStatus.PLAYING) :
    ((handleGuess sg letter s).status = GameStatus.WON →
      (handleGuess sg letter s).currentTeam = s.currentTeam ∧
      (handleGuess sg letter s).scores = s.scores.addPoint s.currentTeam) ∧
    ((handleGuess sg letter s).status = GameStatus.LOST →
      (handleGuess sg letter s).scores = s.scores) ∧
    (∀ sc : Scores, ∀ t : Team,
      (sc.addPoint t).get t = sc.get t + 1 ∧
      (sc.addPoint t).get t.flip = sc.get t.flip) := by
  have hpoint : ∀ sc : Scores, ∀ t : Team,
      (sc.addPoint t).get t = sc.get t + 1 ∧
      (sc.addPoint t).get t.flip = sc.get t.flip := by
    intro sc t
    cases t with
    | A => exact ⟨rfl, rfl⟩
    | B => exact ⟨rfl, rfl⟩
  by_cases hm : letter ∈ wordSegmentsOf sg s
  · by_cases hall : ∀ seg ∈ wordSegmentsOf sg s, seg ∈ insert letter s.guessedLetters
    · rw [handleGuess_correct_won sg letter s hp hm hall]
      refine ⟨fun _ => ⟨rfl, rfl⟩, fun h => ?_, hpoint⟩
      exact GameStatus.noConfusion (show GameStatus.WON = GameStatus.LOST from h)
    · rw [handleGuess_correct_continue sg letter s hp hm hall]
      refine ⟨fun h => ?_, fun h => ?_, hpoint⟩
      · exact GameStatus.noConfusion (show GameStatus.PLAYING = GameStatus.WON from hp ▸ h)
      · exact GameStatus.noConfusion (show GameStatus.PLAYING = GameStatus.LOST from hp ▸ h)
  · by_cases hb : GUESS_LIMITS s.difficulty ≤ s.wrongGuesses + 1
    · rw [handleGuess_wrong_lost sg letter s hp hm hb]
      refine ⟨fun h => ?_, fun _ => rfl, hpoint⟩
      exact GameStatus.noConfusion (show GameStatus.LOST = GameStatus.WON from h)
    · rw [handleGuess_wrong_flip sg letter s hp hm (by omega)]
      refine ⟨fun h => ?_, fun h => ?_, hpoint⟩
      · exact GameStatus.noConfusion (show GameStatus.PLAYING = GameStatus.WON from hp ▸ h)
      · exact GameStatus.noConfusion (show GameStatus.PLAYING = GameStatus.LOST from hp ▸ h)

/-- Witness for C5: the winning guess "n" on a nearly complete concrete round
awards the point to team A. -/
theorem claim5_witness :
    sampleAlmostWon.status = GameStatus.PLAYING ∧
    (handleGuess charSeg "n" sampleAlmostWon).status = GameStatus.WON ∧
    (handleGuess charSeg "n" sampleAlmostWon).currentTeam = sampleAlmostWon.currentTeam ∧
    (handleGuess charSeg "n" sampleAlmostWon).scores
      = sampleAlmostWon.scores.addPoint sampleAlmostWon.currentTeam :=
  ⟨rfl, by decide,
   ((claim5_scoring charSeg "n" sampleAlmostWon rfl).1 (by decide)).1,
   ((claim5_scoring charSeg "n" sampleAlmostWon rfl).1 (by decide)).2⟩

/-- C6: advancing after a resolved round enters SeriesOver exactly when the
round counter has reached the 6-round total (leaving all other state alone);
otherwise it increments the counter, alternates the starter, hands the new
starter the turn and triggers a fresh puzzle load; the series winner is the
team with the strictly higher score, equal scores being a tie. -/
theorem claim6_advance_round (w : Except String GameWordData)
    (i : String → Except String String) (a : Except String (Option String))
    (s : GameState) :
    ((handleNextRound w i a s).status = GameStatus.SERIES_OVER
      ↔ TOTAL_ROUNDS ≤ s.roundNumber) ∧
    (TOTAL_ROUNDS ≤ s.roundNumber →
      handleNextRound w i a s = { s with status := GameStatus.SERIES_OVER }) ∧
    (s.roundNumber < TOTAL_ROUNDS →
      ((handleNextRound w i a s).roundNumber = s.roundNumber + 1 ∧
       (handleNextRound w i a s).roundStarter = s.roundStarter.flip ∧
       (handleNextRound w i a s).currentTeam = s.roundStarter.flip ∧
       handleNextRound w i a s
         = loadPuzzle w i a { s with roundNumber := s.roundNumber + 1,
                                     roundStarter := s.roundStarter.flip,
                                     currentTeam := s.roundStarter.flip })) ∧
    (∀ sc : Scores,
      (sc.B < sc.A → seriesWinner sc = SeriesOutcome.teamA) ∧
      (sc.A < sc.B → seriesWinner sc = SeriesOutcome.teamB) ∧
      (sc.A = sc.B → seriesWinner sc = SeriesOutcome.tie)) := by
  have hwinner : ∀ sc : Scores,
      (sc.B < sc.A → seriesWinner sc = SeriesOutcome.teamA) ∧
      (sc.A < sc.B → seriesWinner sc = SeriesOutcome.teamB) ∧
      (sc.A = sc.B → seriesWinner sc = SeriesOutcome.tie) := by
    intro sc
    refine ⟨?_, ?_, ?_⟩
    · intro h
      unfold seriesWinner
      rw [if_pos h]
    · intro h
      unfold seriesWinner
      rw [if_neg (by omega), if_pos h]
    · intro h
      unfold seriesWinner
      rw [if_neg (by omega), if_neg (by omega)]
  by_cases hr : TOTAL_ROUNDS ≤ s.roundNumber
  · have hred : handleNextRound w i a s = { s with status := GameStatus.SERIES_OVER } := by
      unfold handleNextRound
      rw [if_pos hr]
    rw [hred]
    refine ⟨?_, fun _ => rfl, fun hlt => absurd hr (by omega), hwinner⟩
    show GameStatus.SERIES_OVER = GameStatus.SERIES_OVER ↔ _
    simp [hr]
  · have hred : handleNextRound w i a s
        = loadPuzzle w i a { s with roundNumber := s.roundNumber + 1,
                                    roundStarter := s.roundStarter.flip,
                                    currentTeam := s.roundStarter.flip } := by
      unfold handleNextRound
      rw [if_neg hr]
    rw [hred]
    obtain ⟨h1, h2, h3, -, -⟩ := loadPuzzle_tournament_fields w i a
      { s with roundNumber := s.roundNumber + 1, roundStarter := s.roundStarter.flip,
               currentTeam := s.roundStarter.flip }
    refine ⟨?_, fun h => absurd h hr, fun _ => ⟨h3, h1, h2, rfl⟩, hwinner⟩
    rcases loadPuzzle_status_cases w i a
        { s with roundNumber := s.roundNumber + 1, roundStarter := s.roundStarter.flip,
                 currentTeam := s.roundStarter.flip } with hst | hst
    · rw [hst]
      constructor
      · intro h
        cases h
      · intro h
        exact absurd h hr
    · rw [hst]
      constructor
      · intro h
        cases h
      · intro h
        exact absurd h hr

/-- Witness for C6 at round 6: advancing enters SeriesOver; plus the winner
function at the concrete final scores A:3 B:2. -/
theorem claim6_witness :
    TOTAL_ROUNDS ≤ sampleRoundSix.roundNumber ∧
    handleNextRound (Except.error "e") (fun _ => Except.error "e") (Except.error "e")
        sampleRoundSix
      = { sampleRoundSix with status := GameStatus.SERIES_OVER } ∧
    (Scores.mk 3 2).B < (Scores.mk 3 2).A ∧
    seriesWinner (Scores.mk 3 2) = SeriesOutcome.teamA :=
  ⟨by decide,
   (claim6_advance_round (Except.error "e") (fun _ => Except.error "e") (Except.error "e")
      sampleRoundSix).2.1 (by decide),
   by decide,
   (((claim6_advance_round (Except.error "e") (fun _ => Except.error "e") (Except.error "e")
      sampleRoundSix).2.2.2 (Scores.mk 3 2)).1 (by decide))⟩

theorem loadImages_ok_length (i : String → Except String String) (data : GameWordData)
    (imgs : List GameImage) (h : loadImages i data = Except.ok imgs) : imgs.length = 3 := by
  unfold loadImages at h
  cases h1 : i data.english with
  | error e =>
    rw [h1] at h
    cases h
  | ok src1 =>
    cases h2 : i (data.distractors.getD 0 "") with
    | error e =>
      rw [h1, h2] at h
      cases h
    | ok src2 =>
      cases h3 : i (data.distractors.getD 1 "") with
      | error e =>
        rw [h1, h2, h3] at h
        cases h
      | ok src3 =>
        rw [h1, h2, h3] at h
        cases h
        rfl

/-- C7: an audio-fetch failure is non-fatal — `generateAudioForWord` maps an
upstream failure to the empty string and a round whose word and images load
still reaches Playing with empty audio; a word-fetch failure or any
image-fetch failure lands the round in Error with the retry message; and a
round that reaches Playing always carries all three images and the fetched
word, never a half-populated state. -/
theorem claim7_load_atomicity (i : String → Except String String)
    (aU : Except String (Option String)) (s : GameState) :
    (∀ e : String, generateAudioForWord (Except.error e) = "") ∧
    (∀ (data : GameWordData) (imgs : List GameImage) (e : String),
      loadImages i data = Except.ok imgs →
      (loadPuzzle (Except.ok data) i (Except.error e) s).status = GameStatus.PLAYING ∧
      (loadPuzzle (Except.ok data) i (Except.error e) s).audioData = some "") ∧
    (∀ e : String,
      (loadPuzzle (Except.error e) i aU s).status = GameStatus.ERROR ∧
      (loadPuzzle (Except.error e) i aU s).errorMsg = some loadErrorMessage) ∧
    (∀ (data : GameWordData) (e : String),
      loadImages i data = Except.error e →
      (loadPuzzle (Except.ok data) i aU s).status = GameStatus.ERROR ∧
      (loadPuzzle (Except.ok data) i aU s).errorMsg = some loadErrorMessage) ∧
    (∀ w : Except String GameWordData,
      (loadPuzzle w i aU s).status = GameStatus.PLAYING →
      (loadPuzzle w i aU s).images.length = 3 ∧
      ∃ data : GameWordData, w = Except.ok data ∧
        (loadPuzzle w i aU s).wordData = some data) := by
  refine ⟨fun e => rfl, ?_, fun e => ⟨rfl, rfl⟩, ?_, ?_⟩
  · intro data imgs e himg
    unfold loadPuzzle
    dsimp only
    rw [himg]
    exact ⟨rfl, rfl⟩
  · intro data e himg
    unfold loadPuzzle
    dsimp only
    rw [himg]
    exact ⟨rfl, rfl⟩
  · intro w hpl
    cases w with
    | error e => exact GameStatus.noConfusion hpl
    | ok data =>
      cases himg : loadImages i data with
      | error e =>
        unfold loadPuzzle at hpl
        dsimp only at hpl
        rw [himg] at hpl
        exact GameStatus.noConfusion hpl
      | ok imgs =>
        unfold loadPuzzle
        dsimp only
        rw [himg]
        exact ⟨loadImages_ok_length i data imgs himg, data, rfl, rfl⟩

/-- A fully successful image fetch used for the C7 witness. -/
def sampleImageFetch : String → Except String String :=
  fun lbl => Except.ok ("img-" ++ lbl)

/-- The image batch produced by `sampleImageFetch` for `sampleWord`. -/
def sampleImages : List GameImage :=
  [⟨"eye", "img-eye", true⟩, ⟨"dog", "img-dog", false⟩, ⟨"cat", "img-cat", false⟩]

/-- Witness for C7: with images succeeding and the audio upstream failing, the
concrete round still reaches Playing with empty audio. -/
theorem claim7_witness :
    loadImages sampleImageFetch sampleWord = Except.ok sampleImages ∧
    (loadPuzzle (Except.ok sampleWord) sampleImageFetch (Except.error "boom")
        samplePlaying).status = GameStatus.PLAYING ∧
    (loadPuzzle (Except.ok sampleWord) sampleImageFetch (Except.error "boom")
        samplePlaying).audioData = some "" :=
  ⟨rfl,
   ((claim7_load_atomicity sampleImageFetch (Except.ok none) samplePlaying).2.1 sampleWord
      sampleImages "boom" rfl).1,
   ((claim7_load_atomicity sampleImageFetch (Except.ok none) samplePlaying).2.1 sampleWord
      sampleImages "boom" rfl).2⟩

theorem jsSetList_mem_aux (l : List String) :
    ∀ (acc : List String) (x : String),
      (x ∈ l.foldl (fun acc y => if y ∈ acc then acc else acc ++ [y]) acc)
        ↔ x ∈ acc ∨ x ∈ l := by
  induction l with
  | nil =>
    intro acc x
    simp
  | cons a t ih =>
    intro acc x
    simp only [List.foldl_cons]
    by_cases h : a ∈ acc
    · rw [if_pos h, ih]
      constructor
      · rintro (hx | hx)
        · exact Or.inl hx
        · exact Or.inr (List.mem_cons_of_mem a hx)
      · rintro (hx | hx)
        · exact Or.inl hx
        · rcases List.mem_cons.mp hx with rfl | hx
          · exact Or.inl h
          · exact Or.inr hx
    · rw [if_neg h, ih]
      constructor
      · rintro (hx | hx)
        · rcases List.mem_append.mp hx with hx | hx
          · exact Or.inl hx
          · rw [List.mem_singleton.mp hx]
            exact Or.inr (List.mem_cons_self a t)
        · exact Or.inr (List.mem_cons_of_mem a hx)
      · rintro (hx | hx)
        · exact Or.inl (List.mem_append.mpr (Or.inl hx))
        · rcases List.mem_cons.mp hx with rfl | hx
          · exact Or.inl (List.mem_append.mpr (Or.inr (List.mem_singleton.mpr rfl)))
          · exact Or.inr hx

theorem jsSetList_mem (l : List String) (x : String) : x ∈ jsSetList l ↔ x ∈ l := by
  rw [jsSetList, jsSetList_mem_aux]
  simp

theorem keyboardLetters_mem (sg : String → List String) (wd : GameWordData) (x : String) :
    x ∈ keyboardLetters sg wd
      ↔ x ∈ sg wd.word ∨ (x ∈ wd.distractorLetters ∧ x ∉ sg wd.word) := by
  unfold keyboardLetters
  rw [List.mem_append]
  constructor
  · rintro (hx | hx)
    · exact Or.inl ((jsSetList_mem _ x).mp hx)
    · obtain ⟨hmem, hnot⟩ := List.mem_filter.mp hx
      refine Or.inr ⟨hmem, fun hc => ?_⟩
      rw [decide_eq_true_iff] at hnot
      exact hnot ((jsSetList_mem _ x).mpr hc)
  · rintro (hx | ⟨hmem, hnot⟩)
    · exact Or.inl ((jsSetList_mem _ x).mpr hx)
    · refine Or.inr (List.mem_filter.mpr ⟨hmem, ?_⟩)
      rw [decide_eq_true_iff]
      intro hc
      exact hnot ((jsSetList_mem _ x).mp hc)

theorem keyboardLetters_toFinset (sg : String → List String) (wd : GameWordData) :
    (keyboardLetters sg wd).toFinset
      = (sg wd.word).toFinset ∪ (wd.distractorLetters.toFinset \ (sg wd.word).toFinset) := by
  ext x
  rw [List.mem_toFinset, keyboardLetters_mem]
  simp only [Finset.mem_union, Finset.mem_sdiff, List.mem_toFinset]

/-- C8: the composed keyboard has exactly as many unique entries as the union
of the target letter set with the distractors surviving the defensive filter
(those not colliding with the target set), and any two shuffle orders of the
composed keyboard carry the same multiset of values. -/
theorem claim8_keyboard (sg : String → List String) (wd : GameWordData) :
    ((keyboardLetters sg wd).toFinset.card
      = ((sg wd.word).toFinset ∪
          (wd.distractorLetters.toFinset \ (sg wd.word).toFinset)).card) ∧
    (∀ order1 order2 : List String,
      (keyboardLetters sg wd).Perm order1 → (keyboardLetters sg wd).Perm order2 →
      (order1 : Multiset String) = (order2 : Multiset String)) := by
  refine ⟨by rw [keyboardLetters_toFinset], ?_⟩
  intro l1 l2 h1 h2
  exact Multiset.coe_eq_coe.mpr (h1.symm.trans h2)

/-- Witness for C8 at the concrete sample word, taking the identity shuffle and
the reversed shuffle as the two presentation orders. -/
theorem claim8_witness :
    (keyboardLetters charSeg sampleWord).Perm (keyboardLetters charSeg sampleWord) ∧
    (keyboardLetters charSeg sampleWord).Perm (keyboardLetters charSeg sampleWord).reverse ∧
    ((keyboardLetters charSeg sampleWord : Multiset String)
      = ((keyboardLetters charSeg sampleWord).reverse : Multiset String)) :=
  ⟨List.Perm.refl _, (List.reverse_perm _).symm,
   (claim8_keyboard charSeg sampleWord).2 _ _ (List.Perm.refl _) (List.reverse_perm _).symm⟩

theorem foldl_guess_stuck (sg : String → List String) (gs : List String) (s : GameState)
    (h : s.status ≠ GameStatus.PLAYING) :
    gs.foldl (fun st g => handleGuess sg g st) s = s := by
  induction gs with
  | nil => rfl
  | cons g t ih =>
    simp only [List.foldl_cons]
    rw [handleGuess_not_playing sg g s h]
    exact ih

theorem foldl_correct_guesses (sg : String → List String) (gs : List String) :
    ∀ s : GameState, s.status = GameStatus.PLAYING →
    (∀ g ∈ gs, g ∈ wordSegmentsOf sg s) →
    (¬ ∀ x ∈ wordSegmentsOf sg s, x ∈ s.guessedLetters) →
    (∀ x ∈ wordSegmentsOf sg s, x ∈ s.guessedLetters ∨ x ∈ gs) →
    (gs.foldl (fun st g => handleGuess sg g st) s).status = GameStatus.WON := by
  induction gs with
  | nil =>
    intro s hp hc hnc hcov
    refine absurd (fun x hx => ?_) hnc
    rcases hcov x hx with hin | hin
    · exact hin
    · exact absurd hin (List.not_mem_nil x)
  | cons g t ih =>
    intro s hp hc hnc hcov
    simp only [List.foldl_cons]
    have hg : g ∈ wordSegmentsOf sg s := hc g (List.mem_cons_self g t)
    by_cases hall : ∀ x ∈ wordSegmentsOf sg s, x ∈ insert g s.guessedLetters
    · rw [handleGuess_correct_won sg g s hp hg hall]
      have hstuck := foldl_guess_stuck sg t
        { s with guessedLetters := insert g s.guessedLetters, status := GameStatus.WON,
                 scores := s.scores.addPoint s.currentTeam }
        (fun hcon => GameStatus.noConfusion
          (show GameStatus.WON = GameStatus.PLAYING from hcon))
      rw [hstuck]
    · rw [handleGuess_correct_continue sg g s hp hg hall]
      refine ih { s with guessedLetters := insert g s.guessedLetters } hp
        (fun x hx => hc x (List.mem_cons_of_mem g hx)) hall ?_
      intro x hx
      rcases hcov x hx with hin | hmem
      · exact Or.inl (Finset.mem_insert_of_mem hin)
      · rcases List.mem_cons.mp hmem with rfl | ht
        · exact Or.inl (Finset.mem_insert_self x s.guessedLetters)
        · exact Or.inr ht

/-- C10: every segment of the target word appears in the composed keyboard
(the defensive filter only ever removes distractor letters), and from a fresh
Playing round on a nonempty word there is a guess sequence drawn entirely
from the keyboard that ends the round in Won. -/
theorem claim10_winnable (sg : String → List String) (wd : GameWordData) (s : GameState)
    (hp : s.status = GameStatus.PLAYING) (hw : s.wordData = some wd)
    (hg : s.guessedLetters = ∅) (hne : sg wd.word ≠ []) :
    (∀ x ∈ sg wd.word, x ∈ keyboardLetters sg wd) ∧
    (∃ gs : List String, (∀ g ∈ gs, g ∈ keyboardLetters sg wd) ∧
      (gs.foldl (fun st g => handleGuess sg g st) s).status = GameStatus.WON) := by
  have hws : wordSegmentsOf sg s = sg wd.word := by
    rw [wordSegmentsOf, hw]
  have hkey : ∀ x ∈ sg wd.word, x ∈ keyboardLetters sg wd := by
    intro x hx
    rw [keyboardLetters_mem]
    exact Or.inl hx
  refine ⟨hkey, sg wd.word, hkey, ?_⟩
  apply foldl_correct_guesses sg (sg wd.word) s hp
  · intro g hgm
    rw [hws]
    exact hgm
  · rw [hws, hg]
    intro hall
    rcases List.exists_mem_of_ne_nil (sg wd.word) hne with ⟨x, hx⟩
    exact absurd (hall x hx) (Finset.not_mem_empty x)
  · intro x hx
    rw [hws] at hx
    exact Or.inr hx

/-- Witness for C10 at the concrete fresh round on the word "kan". -/
theorem claim10_witness :
    samplePlaying.status = GameStatus.PLAYING ∧
    samplePlaying.wordData = some sampleWord ∧
    samplePlaying.guessedLetters = ∅ ∧
    charSeg sampleWord.word ≠ [] ∧
    ((∀ x ∈ charSeg sampleWord.word, x ∈ keyboardLetters charSeg sampleWord) ∧
     (∃ gs : List String, (∀ g ∈ gs, g ∈ keyboardLetters charSeg sampleWord) ∧
       (gs.foldl (fun st g => handleGuess charSeg g st) samplePlaying).status
         = GameStatus.WON)) :=
  ⟨rfl, rfl, rfl, by decide,
   claim10_winnable charSeg sampleWord samplePlaying rfl rfl rfl (by decide)⟩

/-- C9: the attempt budget is a pure function of difficulty with literal values
Easy = 8, Medium = 6, Hard = 4, and these are strictly decreasing. -/
theorem claim9_guess_limits :
    GUESS_LIMITS Difficulty.EASY = 8 ∧
    GUESS_LIMITS Difficulty.MEDIUM = 6 ∧
    GUESS_LIMITS Difficulty.HARD = 4 ∧
    GUESS_LIMITS Difficulty.MEDIUM < GUESS_LIMITS Difficulty.EASY ∧
    GUESS_LIMITS Difficulty.HARD < GUESS_LIMITS Difficulty.MEDIUM := by
  refine ⟨rfl, rfl, rfl, ?_, ?_⟩ <;> decide

end TamilTeacher
